import Mathlib

/-!
Shallow embedding of the configuration subsystem of the `buvis-pybase`
repository (`src/buvis/pybase/configuration/`): the YAML config loader
(`resolver._load_yaml_config`), the settings resolver
(`ConfigResolver.resolve`), the candidate-file locator
(`ConfigurationLoader._get_candidate_files`, `find_config_files`), the
`Configuration` accessors, the environment-variable substitution engine,
and the JSON payload size validator (`validators.validate_json_env_size`).

Python runtime values are embedded as `PyVal`; the process environment as
an association list; the filesystem and the YAML parser (external library
`yaml.safe_load`) as oracles passed in as functions.
-/

namespace Buvis

/-- Embedded Python runtime values appearing in configs and settings. -/
inductive PyVal where
  | none
  | bool (b : Bool)
  | int (n : Int)
  | str (s : String)
  | list (xs : List PyVal)
deriving Repr

mutual

/-- Python `==` on embedded values (structural equality). -/
def PyVal.beq : PyVal → PyVal → Bool
  | PyVal.none, PyVal.none => true
  | PyVal.bool a, PyVal.bool b => a == b
  | PyVal.int a, PyVal.int b => a == b
  | PyVal.str a, PyVal.str b => a == b
  | PyVal.list a, PyVal.list b => PyVal.listBeq a b
  | _, _ => false

/-- Python `==` on lists of embedded values. -/
def PyVal.listBeq : List PyVal → List PyVal → Bool
  | [], [] => true
  | a :: as, b :: bs => PyVal.beq a b && PyVal.listBeq as bs
  | _, _ => false

end

instance : BEq PyVal := ⟨PyVal.beq⟩

/-- Python `is None` on an embedded value. -/
def PyVal.isNone : PyVal → Bool
  | PyVal.none => true
  | _ => false

/-- Python truthiness of an embedded value (`bool(v)`). -/
def PyVal.truthy : PyVal → Bool
  | PyVal.none => false
  | PyVal.bool b => b
  | PyVal.int n => n != 0
  | PyVal.str s => s != ""
  | PyVal.list xs => !xs.isEmpty

/-- The process environment: an association list of variable names to
string values, first binding wins (keys are unique in a real process). -/
abbrev Env := List (String × String)

/-- `os.environ.get(k)`. -/
def envGet (e : Env) (k : String) : Option String :=
  (e.find? (fun p => p.1 == k)).map (fun p => p.2)

/-- `os.environ[k] = v`: replace the first binding of `k`, or append. -/
def envSet (e : Env) (k v : String) : Env :=
  match e with
  | [] => [(k, v)]
  | (k2, v2) :: rest => if k2 == k then (k, v) :: rest else (k2, v2) :: envSet rest k v

/-- `os.environ.pop(k, None)`: remove every binding of `k`. -/
def envPop (e : Env) (k : String) : Env :=
  e.filter (fun p => !(p.1 == k))

/-- A Python `dict[str, Any]` as an association list. -/
abbrev Dict := List (String × PyVal)

/-- Dictionary lookup (`d.get(k)` / `getattr`): first binding of `k`. -/
def lookupField (d : Dict) (k : String) : Option PyVal :=
  (d.find? (fun p => p.1 == k)).map (fun p => p.2)

/-- `d[k] = v`: replace the first binding of `k` in place, or append. -/
def dictSet (d : Dict) (k : String) (v : PyVal) : Dict :=
  match d with
  | [] => [(k, v)]
  | (k2, v2) :: rest => if k2 == k then (k, v) :: rest else (k2, v2) :: dictSet rest k v

/-- `a | b` on dicts: entries of `b` laid over `a`, later entries winning. -/
def applyAll (a : Dict) (b : Dict) : Dict :=
  b.foldl (fun m kv => dictSet m kv.1 kv.2) a

/-- Declared type of a settings field. -/
inductive FieldType where
  | bool
  | int
  | str
deriving DecidableEq, Repr

/-- One field of a Pydantic settings class: name, declared type, default. -/
structure FieldSpec where
  name : String
  ty : FieldType
  default : PyVal
deriving Repr

/-- A Pydantic settings class: env-variable name pfx (`env_prefix` from
`model_config`) and declared fields with defaults. -/
structure Schema where
  pfx : String
  fields : List FieldSpec
deriving Repr

/-- ASCII uppercase of one character. -/
def upperChar (c : Char) : Char :=
  if c.toNat ≥ 97 && c.toNat ≤ 122 then Char.ofNat (c.toNat - 32) else c

/-- ASCII uppercase of a string: how Pydantic derives the environment
variable name `PREFIX_FIELDNAME` from a field name. -/
def upperStr (s : String) : String := String.mk (s.data.map upperChar)

/-- Pydantic lax coercion of an environment string to a bool. -/
def strToBool (s : String) : Option Bool :=
  if s == "true" || s == "True" || s == "TRUE" || s == "1" || s == "yes" || s == "on" then
    some true
  else if s == "false" || s == "False" || s == "FALSE" || s == "0" || s == "no" || s == "off" then
    some false
  else Option.none

/-- Pydantic coercion of an environment string to a typed field value. -/
def coerceEnv : FieldType → String → Option PyVal
  | FieldType.str, s => some (PyVal.str s)
  | FieldType.int, s => (s.toInt?).map PyVal.int
  | FieldType.bool, s => (strToBool s).map PyVal.bool

/-- State of one filesystem path as seen by the loader. -/
inductive FileState where
  | absent
  | denied
  | content (text : String)

/-- Outcome of `yaml.safe_load` on a file's text: a mapping, a falsy
result (empty document), or a syntax error with an optional
`problem_mark` carrying a 0-based line number. -/
inductive YamlOut where
  | mapping (m : Dict)
  | null
  | err (mark : Option Nat) (msg : String)

/-- Errors raised by the configuration subsystem (`ConfigurationError`). -/
inductive ConfigError where
  | yamlErr (path : String) (mark : Option Nat) (msg : String)
  | validation (field : String)
deriving Repr

/-- Render the message string carried by a `ConfigurationError`, as built
at `resolver.py` line 51: path, then 1-based line (or `unknown`), then the
parser's own message. -/
def ConfigError.message : ConfigError → String
  | ConfigError.yamlErr p mark m =>
      "YAML syntax error in " ++ p ++ ":" ++
        (match mark with
          | some l => toString (l + 1)
          | Option.none => "unknown") ++ ": " ++ m
  | ConfigError.validation f => "Configuration validation failed: " ++ f

/-- Default config file used by `_load_yaml_config` when no path and no
`BUVIS_CONFIG_FILE` variable is given (`~/.config/buvis/config.yaml`). -/
def defaultConfigFile : String := "~/.config/buvis/config.yaml"

/-- Path selection of `_load_yaml_config` (resolver.py lines 38-40): the
explicit argument, else `BUVIS_CONFIG_FILE`, else the default file. -/
def loadPath (env : Env) (filePath : Option String) : String :=
  match filePath with
  | some p => p
  | Option.none => (envGet env "BUVIS_CONFIG_FILE").getD defaultConfigFile

/-- `resolver._load_yaml_config`: pick the path (argument, else
`BUVIS_CONFIG_FILE`, else the default), return `{}` when the file is
absent, `{}` when opening it is denied (`PermissionError` handler), the
parsed mapping on success (`or {}` for a falsy parse), and raise
`ConfigurationError` on a YAML syntax error. -/
def loadYamlConfig (fs : String → FileState) (parse : String → YamlOut)
    (env : Env) (filePath : Option String) : Except ConfigError Dict :=
  let path := loadPath env filePath
  match fs path with
  | FileState.absent => Except.ok []
  | FileState.denied => Except.ok []
  | FileState.content text =>
    match parse text with
    | YamlOut.mapping m => Except.ok m
    | YamlOut.null => Except.ok []
    | YamlOut.err mark msg => Except.error (ConfigError.yamlErr path mark msg)

/-- Pydantic construction `settings_class()`: for each field, the value of
the env variable `pfx + NAME` (coerced to the field's type, a coercion
failure being a validation error), else the field's default. -/
def baseFields (schema : Schema) (env : Env) : List FieldSpec → Except ConfigError Dict
  | [] => Except.ok []
  | f :: rest =>
    match envGet env (schema.pfx ++ upperStr f.name) with
    | some s =>
      match coerceEnv f.ty s with
      | some v =>
        match baseFields schema env rest with
        | Except.ok d => Except.ok ((f.name, v) :: d)
        | Except.error e => Except.error e
      | Option.none => Except.error (ConfigError.validation f.name)
    | Option.none =>
      match baseFields schema env rest with
      | Except.ok d => Except.ok ((f.name, f.default) :: d)
      | Except.error e => Except.error e

/-- `settings_class()` over all declared fields. -/
def baseSettings (schema : Schema) (env : Env) : Except ConfigError Dict :=
  baseFields schema env schema.fields

/-- Pydantic validation of one already-typed value against a field type. -/
def validateVal : FieldType → PyVal → Option PyVal
  | FieldType.bool, PyVal.bool b => some (PyVal.bool b)
  | FieldType.int, PyVal.int n => some (PyVal.int n)
  | FieldType.str, PyVal.str s => some (PyVal.str s)
  | _, _ => Option.none

/-- `settings_class.model_validate(d)`: for each declared field, validate
the dict's value against the field's type (missing fields take the
default); extra keys of `d` are ignored. -/
def validateFields : List FieldSpec → Dict → Except ConfigError Dict
  | [], _ => Except.ok []
  | f :: rest, d =>
    match lookupField d f.name with
    | Option.none =>
      match validateFields rest d with
      | Except.ok s => Except.ok ((f.name, f.default) :: s)
      | Except.error e => Except.error e
    | some v =>
      match validateVal f.ty v with
      | Option.none => Except.error (ConfigError.validation f.name)
      | some w =>
        match validateFields rest d with
        | Except.ok s => Except.ok ((f.name, w) :: s)
        | Except.error e => Except.error e

/-- `resolver.py` lines 151-158: keep a YAML entry only when it names a
declared field whose value in the baseline instance still equals that
field's static default (Python `==`). -/
def yamlFold (schema : Schema) (base : Dict) (yamlConfig : Dict) : Dict :=
  yamlConfig.foldl
    (fun m kv =>
      match schema.fields.find? (fun f => f.name == kv.1) with
      | some f =>
        if lookupField base kv.1 == some f.default then dictSet m kv.1 kv.2 else m
      | Option.none => m)
    []

/-- `resolver.py` lines 160-164: lay every non-`None` CLI override over the
merged dict, last. -/
def cliFold (m : Dict) : Option (List (String × PyVal)) → Dict
  | Option.none => m
  | some ovr =>
    ovr.foldl (fun acc kv => if kv.2.isNone then acc else dictSet acc kv.1 kv.2) m

/-- Body of `ConfigResolver.resolve` (the `try` block at lines 136-196):
load YAML, construct the baseline instance, merge YAML-for-defaulted
fields and CLI overrides, and re-validate when anything was merged. -/
def resolveBody (schema : Schema) (fs : String → FileState)
    (parse : String → YamlOut) (env1 : Env) (configPath : Option String)
    (cliOverrides : Option (List (String × PyVal))) : Except ConfigError Dict :=
  match loadYamlConfig fs parse env1 configPath with
  | Except.error e => Except.error e
  | Except.ok yamlConfig =>
    match baseSettings schema env1 with
    | Except.error e => Except.error e
    | Except.ok base =>
      let merged := cliFold (yamlFold schema base yamlConfig) cliOverrides
      if merged.isEmpty then Except.ok base
      else validateFields schema.fields (applyAll base merged)

/-- `ConfigResolver.resolve`: read the ambient `BUVIS_CONFIG_DIR`, set it
to `configDir` when one is given, run the body, and in the
`finally` block restore the variable (pop it when it was absent before).
Returns the outcome of the body together with the final environment. -/
def resolve (schema : Schema) (fs : String → FileState)
    (parse : String → YamlOut) (env0 : Env) (configDir : Option String)
    (configPath : Option String) (cliOverrides : Option (List (String × PyVal))) :
    Except ConfigError Dict × Env :=
  let originalConfigDir := envGet env0 "BUVIS_CONFIG_DIR"
  let env1 :=
    match configDir with
    | some d => envSet env0 "BUVIS_CONFIG_DIR" d
    | Option.none => env0
  let outcome := resolveBody schema fs parse env1 configPath cliOverrides
  let envFinal :=
    match originalConfigDir with
    | some v => envSet env1 "BUVIS_CONFIG_DIR" v
    | Option.none => envPop env1 "BUVIS_CONFIG_DIR"
  (outcome, envFinal)

/-- `ConfigurationLoader._get_candidate_files`: per search directory, the
base file `buvis.yaml` and, when the tool name is truthy (neither absent
nor the empty string), the tool-specific file `buvis-{tool}.yaml`. -/
def getCandidateFiles : List String → Option String → List String
  | [], _ => []
  | base :: rest, t =>
    let tail := getCandidateFiles rest t
    let toolFiles :=
      match t with
      | some s => if s == "" then ([] : List String) else [base ++ "/buvis-" ++ s ++ ".yaml"]
      | Option.none => ([] : List String)
    (base ++ "/buvis.yaml") :: (toolFiles ++ tail)

/-- The `NotImplementedError` raised by discovery. -/
inductive DiscoveryError where
  | notImplemented
deriving Repr, DecidableEq

/-- `ConfigurationLoader.find_config_files`: unconditionally raises
`NotImplementedError` (loader.py lines 67-85). -/
def findConfigFiles (_toolName : Option String) : Except DiscoveryError (List String) :=
  Except.error DiscoveryError.notImplemented

/-- `path.exists()` against the filesystem oracle. -/
def fsExists (fs : String → FileState) (p : String) : Bool :=
  match fs p with
  | FileState.absent => false
  | FileState.denied => true
  | FileState.content _ => true

/-- Errors escaping `Configuration._determine_config_path`. -/
inductive ConfigPathError where
  | fileNotFound (path : String)
  | notImplemented
deriving Repr, DecidableEq

/-- `Configuration._determine_config_path` (configuration.py lines 70-122):
an explicit path is checked for existence; otherwise
`ConfigurationLoader.find_config_files()` is called with no handler, so
its `NotImplementedError` propagates; only when discovery returns (which
it never does in this codebase) would the `BUVIS_CONFIG_FILE` / default
fallback run. -/
def determineConfigPath (fs : String → FileState) (env : Env)
    (filePath : Option String) : Except ConfigPathError (Option String) :=
  match filePath with
  | some p =>
    if fsExists fs p then Except.ok (some p)
    else Except.error (ConfigPathError.fileNotFound p)
  | Option.none =>
    match findConfigFiles Option.none with
    | Except.error _ => Except.error ConfigPathError.notImplemented
    | Except.ok discovered =>
      match discovered with
      | d :: _ => Except.ok (some d)
      | [] =>
        let alt :=
          match envGet env "BUVIS_CONFIG_FILE" with
          | some p => p
          | Option.none => defaultConfigFile
        if fsExists fs alt then Except.ok (some alt) else Except.ok Option.none

/-- `Configuration.get_configuration_item` (configuration.py lines
145-169): return the stored value; on a missing key return the default
only when it is truthy, else raise `ConfigurationKeyNotFoundError`. -/
def get_configuration_item (d : Dict) (key : String) (dflt : PyVal) :
    Except String PyVal :=
  match lookupField d key with
  | some v => Except.ok v
  | Option.none =>
    if dflt.truthy then Except.ok dflt
    else Except.error (key ++ " not found in configuration.")

/-- `Configuration.get_configuration_item_or_default` (configuration.py
lines 171-188): return the stored value, else the default as given. -/
def get_configuration_item_or_default (d : Dict) (key : String) (dflt : PyVal) : PyVal :=
  match lookupField d key with
  | some v => v
  | Option.none => dflt

/-- `validators.MAX_JSON_ENV_SIZE = 64 * 1024`. -/
def MAX_JSON_ENV_SIZE : Nat := 64 * 1024

/-- `validators.validate_json_env_size`: pass when the variable is unset
or its UTF-8 byte length is within the ceiling, raise `ValueError` when
it exceeds it. -/
def validate_json_env_size (env : Env) (name : String) : Except String Unit :=
  match envGet env name with
  | Option.none => Except.ok ()
  | some v =>
    if v.utf8ByteSize > MAX_JSON_ENV_SIZE then
      Except.error (name ++ " exceeds max JSON size " ++ toString MAX_JSON_ENV_SIZE ++
        " bytes (found " ++ toString v.utf8ByteSize ++ " bytes).")
    else Except.ok ()

/-- A character allowed inside the variable name of a substitution token:
`[^}:]` in the source regex `_ENV_PATTERN` (loader.py line 12). -/
def nameChar (c : Char) : Bool := !(c == '}') && !(c == ':')

/-- Modelled from the spec: the token matcher of the environment
substitution engine (`ConfigurationLoader.load_yaml` / `_substitute` are
referenced by `Configuration._load_configuration` and the tests but their
bodies are not under `src/`; only the regex `_ENV_PATTERN =
\$\x7b([^}:]+)(?::-([^}]*))?\x7d` is). Given the text following a `$`,
recognise `{NAME}` or `{NAME:-default}` with `NAME` a nonempty run of
characters excluding `}` and `:`, and a default excluding `}`; return the
name, the optional default, and how many characters the token consumed
after the `$`. -/
def tryPat (l : List Char) : Option (List Char × Option (List Char) × Nat) :=
  match l with
  | '{' :: rest =>
    let nm := rest.takeWhile nameChar
    let rest2 := rest.dropWhile nameChar
    if nm.isEmpty then Option.none
    else
      match rest2 with
      | '}' :: _ => some (nm, Option.none, nm.length + 2)
      | ':' :: '-' :: r2 =>
        let dflt := r2.takeWhile (fun c => !(c == '}'))
        match r2.dropWhile (fun c => !(c == '}')) with
        | '}' :: _ => some (nm, some dflt, nm.length + dflt.length + 4)
        | _ => Option.none
      | _ => Option.none
  | _ => Option.none

/-- Modelled from the spec: the single-pass substitution scan of
`ConfigurationLoader._substitute` (absent from `src/`), per spec section
4.2: for each `$\x7b...\x7d` token in one left-to-right pass, a set
variable (even one set to the empty string) is replaced by its value
verbatim and never re-scanned; an unset variable with a default is
replaced by the default; an unset variable without a default is left as
the original text and its name is appended to the missing-variable
list. -/
def scanSub (e : Env) (l : List Char) : List Char × List String :=
  match l with
  | [] => ([], [])
  | c :: rest =>
    if c = '$' then
      match tryPat rest with
      | some (nm, dfltOpt, k) =>
        let p := scanSub e (rest.drop k)
        match envGet e (String.mk nm) with
        | some v => (v.data ++ p.1, p.2)
        | Option.none =>
          match dfltOpt with
          | some d => (d ++ p.1, p.2)
          | Option.none =>
            ('$' :: '{' :: (nm ++ '}' :: p.1), String.mk nm :: p.2)
      | Option.none =>
        let p := scanSub e rest
        ('$' :: p.1, p.2)
    else
      let p := scanSub e rest
      (c :: p.1, p.2)
termination_by l.length
decreasing_by
  · simp only [List.length_cons, List.length_drop]
    omega
  · simp only [List.length_cons]
    omega
  · simp only [List.length_cons]
    omega

/-- Modelled from the spec: `_substitute` on whole strings — substitute
the text and collect missing variable names. -/
def substituteText (e : Env) (text : String) : String × List String :=
  let p := scanSub e text.data
  (String.mk p.1, p.2)

/-- A concrete settings class: one bool field `debug` defaulting to
`False`, env-bound through the `BUVIS_` name pfx (as `BuvisSettings`). -/
def demoSchema : Schema :=
  ⟨"BUVIS_", [⟨"debug", FieldType.bool, PyVal.bool false⟩]⟩

/-- A filesystem holding one config file `cfg.yaml` with `debug: true`. -/
def demoFsYamlTrue : String → FileState :=
  fun p => if p == "cfg.yaml" then FileState.content "debug: true" else FileState.absent

/-- A YAML parser oracle mapping that file's text to `{debug: True}`. -/
def demoParseYamlTrue : String → YamlOut :=
  fun t => if t == "debug: true" then YamlOut.mapping [("debug", PyVal.bool true)] else YamlOut.null

/-- An environment that sets the prefixed debug variable to `"false"` —
the same value as the field's default after coercion. -/
def demoEnvFalse : Env := [("BUVIS_DEBUG", "false")]

/-- A filesystem holding one file `bad.yaml` with malformed YAML text. -/
def demoFsBad : String → FileState :=
  fun p => if p == "bad.yaml" then FileState.content "key: [broken" else FileState.absent

/-- A parser oracle failing on that text with a mark on 0-based line 1. -/
def demoParseBad : String → YamlOut :=
  fun t => if t == "key: [broken" then YamlOut.err (some 1) "expected node" else YamlOut.null

theorem envGet_envSet_self (e : Env) (k v : String) : envGet (envSet e k v) k = some v := by
  induction e with
  | nil => simp [envSet, envGet]
  | cons head tail ih =>
    obtain ⟨k2, v2⟩ := head
    by_cases h : k2 = k
    · subst h
      simp [envSet, envGet]
    · have hb : (k2 == k) = false := by simp [h]
      simpa [envSet, hb, envGet] using ih

theorem envGet_envPop_self (e : Env) (k : String) : envGet (envPop e k) k = Option.none := by
  induction e with
  | nil => rfl
  | cons head tail ih =>
    obtain ⟨k2, v2⟩ := head
    by_cases h : k2 = k
    · simp [envPop, h, envGet]
    · have hb : (k2 == k) = false := by simp [h]
      simp [envPop, hb, envGet]

/-- C3: for every call to `ConfigResolver.resolve` — whatever the schema,
filesystem, parser, starting environment, `config_dir`, `config_path` and
`cli_overrides`, and whether the body returns a settings object or raises
— the final environment binds `BUVIS_CONFIG_DIR` to exactly its pre-call
value (in particular it is absent again when it was absent before): the
directory override is scoped to the call. -/
theorem resolve_restores_config_dir (schema : Schema) (fs : String → FileState)
    (parse : String → YamlOut) (env0 : Env) (configDir configPath : Option String)
    (ovr : Option (List (String × PyVal))) :
    envGet (resolve schema fs parse env0 configDir configPath ovr).2 "BUVIS_CONFIG_DIR"
      = envGet env0 "BUVIS_CONFIG_DIR" := by
  unfold resolve
  cases h : envGet env0 "BUVIS_CONFIG_DIR" with
  | none => simp [h, envGet_envPop_self]
  | some v => simp [h, envGet_envSet_self]

/-- C7 (evaluation at the failing input): `find_config_files` raises
`NotImplementedError` for every tool name — and, contrary to the claim,
`Configuration._determine_config_path` has no handler around discovery,
so constructing a `Configuration` without an explicit path propagates the
error for every filesystem and environment instead of falling back to
`BUVIS_CONFIG_FILE` / the default location. -/
theorem find_config_files_always_raises_and_propagates :
    (∀ t, findConfigFiles t = Except.error DiscoveryError.notImplemented) ∧
    (∀ (fs : String → FileState) (env : Env),
      determineConfigPath fs env Option.none = Except.error ConfigPathError.notImplemented) :=
  ⟨fun _ => rfl, fun _ _ => rfl⟩

/-- C1 (evaluation at the failing input): with schema field `debug : bool
= False`, environment `BUVIS_DEBUG=false` (which the environment layer
coerces to `False`, i.e. the environment did supply a value equal to the
default) and YAML `debug: true`, `resolve` returns `debug = True` — the
YAML layer overrides the environment-supplied value, contradicting the
claimed strict `CLI > ENV > YAML > default` precedence. -/
theorem resolve_env_equal_default_beaten_by_yaml :
    (resolve demoSchema demoFsYamlTrue demoParseYamlTrue demoEnvFalse
        Option.none (some "cfg.yaml") Option.none).1
      = Except.ok [("debug", PyVal.bool true)] ∧
    envGet demoEnvFalse "BUVIS_DEBUG" = some "false" ∧
    coerceEnv FieldType.bool "false" = some (PyVal.bool false) :=
  ⟨by rfl, by rfl, by rfl⟩

/-- C8: `_get_candidate_files` treats an empty-string tool name exactly
like no tool name; with no (or empty) tool name it emits exactly the base
file `buvis.yaml` once per directory in order; with a non-empty tool name
it emits, per directory in priority order, the base file followed by the
tool-specific file `buvis-{tool}.yaml` (directory-major, file-kind-minor
ordering). -/
theorem candidate_files_spec :
    (∀ paths, getCandidateFiles paths (some "") = getCandidateFiles paths Option.none) ∧
    (∀ paths, getCandidateFiles paths Option.none
        = paths.map (fun b => b ++ "/buvis.yaml")) ∧
    (∀ paths t, t ≠ "" → getCandidateFiles paths (some t)
        = paths.flatMap (fun b => [b ++ "/buvis.yaml", b ++ "/buvis-" ++ t ++ ".yaml"])) := by
  refine ⟨?_, ?_, ?_⟩
  · intro paths
    induction paths with
    | nil => rfl
    | cons b rest ih => simp [getCandidateFiles, ih]
  · intro paths
    induction paths with
    | nil => rfl
    | cons b rest ih => simp [getCandidateFiles, ih]
  · intro paths t ht
    induction paths with
    | nil => rfl
    | cons b rest ih => simp [getCandidateFiles, ht, ih]

/-- Witness for C8 at a concrete input. -/
theorem candidate_files_witness :
    ("myapp" : String) ≠ "" ∧
    getCandidateFiles ["/a", "/b"] (some "myapp")
      = ["/a/buvis.yaml", "/a/buvis-myapp.yaml", "/b/buvis.yaml", "/b/buvis-myapp.yaml"] := by
  constructor
  · decide
  · have h := candidate_files_spec.2.2 ["/a", "/b"] "myapp" (by decide)
    rw [h]
    rfl

/-- C9: `validate_json_env_size` accepts an unset variable, accepts a set
variable whose UTF-8 byte length is at most `MAX_JSON_ENV_SIZE = 65536`
(so exactly 65536 bytes passes), and rejects one whose byte length
exceeds it (so 65537 bytes fails). -/
theorem validate_json_env_size_spec :
    MAX_JSON_ENV_SIZE = 65536 ∧
    (∀ env name, envGet env name = Option.none →
      validate_json_env_size env name = Except.ok ()) ∧
    (∀ env name v, envGet env name = some v → v.utf8ByteSize ≤ 65536 →
      validate_json_env_size env name = Except.ok ()) ∧
    (∀ env name v, envGet env name = some v → 65536 < v.utf8ByteSize →
      ∃ msg, validate_json_env_size env name = Except.error msg) := by
  refine ⟨rfl, ?_, ?_, ?_⟩
  · intro env name h
    simp [validate_json_env_size, h]
  · intro env name v h hle
    have hnot : ¬ v.utf8ByteSize > MAX_JSON_ENV_SIZE := by
      simp only [MAX_JSON_ENV_SIZE]
      omega
    simp [validate_json_env_size, h, hnot]
  · intro env name v h hgt
    have hyes : v.utf8ByteSize > MAX_JSON_ENV_SIZE := by
      simp only [MAX_JSON_ENV_SIZE]
      omega
    refine ⟨name ++ " exceeds max JSON size " ++ toString MAX_JSON_ENV_SIZE ++
      " bytes (found " ++ toString v.utf8ByteSize ++ " bytes).", ?_⟩
    simp [validate_json_env_size, h, hyes]

/-- Witness for C9 at a concrete input. -/
theorem validate_json_env_size_witness :
    envGet [("BUVIS_JSON", "{}")] "BUVIS_JSON" = some "{}" ∧
    ("{}" : String).utf8ByteSize ≤ 65536 ∧
    validate_json_env_size [("BUVIS_JSON", "{}")] "BUVIS_JSON" = Except.ok () := by
  refine ⟨by rfl, by decide, ?_⟩
  exact validate_json_env_size_spec.2.2.1 [("BUVIS_JSON", "{}")] "BUVIS_JSON" "{}"
    (by rfl) (by decide)

/-- C10: on a key absent from the configuration dictionary,
`get_configuration_item` raises `ConfigurationKeyNotFoundError` whenever
the supplied default is falsy (`None`, `False`, `0`, the empty string,
the empty list are all falsy) and returns the default only when it is
truthy, whereas `get_configuration_item_or_default` returns any supplied
default as-is. -/
theorem get_configuration_item_spec :
    (∀ d key dflt, lookupField d key = Option.none → dflt.truthy = false →
      get_configuration_item d key dflt
        = Except.error (key ++ " not found in configuration.")) ∧
    (∀ d key dflt, lookupField d key = Option.none → dflt.truthy = true →
      get_configuration_item d key dflt = Except.ok dflt) ∧
    (∀ d key dflt, lookupField d key = Option.none →
      get_configuration_item_or_default d key dflt = dflt) ∧
    (PyVal.truthy PyVal.none = false ∧ PyVal.truthy (PyVal.bool false) = false ∧
      PyVal.truthy (PyVal.int 0) = false ∧ PyVal.truthy (PyVal.str "") = false ∧
      PyVal.truthy (PyVal.list []) = false) := by
  refine ⟨?_, ?_, ?_, by decide, by decide, by decide, by decide, by decide⟩
  · intro d key dflt h hf
    simp [get_configuration_item, h, hf]
  · intro d key dflt h ht
    simp [get_configuration_item, h, ht]
  · intro d key dflt h
    simp [get_configuration_item_or_default, h]

/-- Witness for C10 at a concrete input. -/
theorem get_configuration_item_witness :
    lookupField [("other", PyVal.int 1)] "missing" = Option.none ∧
    PyVal.truthy PyVal.none = false ∧
    get_configuration_item [("other", PyVal.int 1)] "missing" PyVal.none
      = Except.error ("missing" ++ " not found in configuration.") := by
  refine ⟨by rfl, by rfl, ?_⟩
  exact get_configuration_item_spec.1 [("other", PyVal.int 1)] "missing" PyVal.none
    (by rfl) (by rfl)

/-- C4: when the file's text fails to parse as YAML, `_load_yaml_config`
raises `ConfigurationError` (never an empty fallback), the error
propagates out of `resolve`, and the rendered message contains the
offending file path and — when the parser reports a `problem_mark` — the
1-based line number. -/
theorem yaml_syntax_error_spec (fs : String → FileState) (parse : String → YamlOut)
    (env : Env) (path text : String) (mark : Option Nat) (emsg : String)
    (schema : Schema) (dir : Option String) (ovr : Option (List (String × PyVal))) :
    fs path = FileState.content text → parse text = YamlOut.err mark emsg →
    (loadYamlConfig fs parse env (some path)
        = Except.error (ConfigError.yamlErr path mark emsg) ∧
      (resolve schema fs parse env dir (some path) ovr).1
        = Except.error (ConfigError.yamlErr path mark emsg) ∧
      (∃ a b, (ConfigError.yamlErr path mark emsg).message = a ++ path ++ b) ∧
      (∀ l, mark = some l → ∃ c d2,
        (ConfigError.yamlErr path mark emsg).message = c ++ toString (l + 1) ++ d2)) := by
  intro hfs hparse
  have hload : ∀ e : Env, loadYamlConfig fs parse e (some path)
      = Except.error (ConfigError.yamlErr path mark emsg) := by
    intro e
    simp [loadYamlConfig, loadPath, hfs, hparse]
  refine ⟨hload env, ?_, ?_, ?_⟩
  · unfold resolve resolveBody
    cases dir <;> simp [hload]
  · cases mark with
    | none =>
      refine ⟨"YAML syntax error in ", ":" ++ "unknown" ++ ": " ++ emsg, ?_⟩
      simp [ConfigError.message, String.append_assoc]
    | some l =>
      refine ⟨"YAML syntax error in ", ":" ++ toString (l + 1) ++ ": " ++ emsg, ?_⟩
      simp [ConfigError.message, String.append_assoc]
  · intro l hl
    subst hl
    refine ⟨"YAML syntax error in " ++ path ++ ":", ": " ++ emsg, ?_⟩
    simp [ConfigError.message, String.append_assoc]

/-- Witness for C4 at a concrete input. -/
theorem yaml_syntax_error_witness :
    demoFsBad "bad.yaml" = FileState.content "key: [broken" ∧
    demoParseBad "key: [broken" = YamlOut.err (some 1) "expected node" ∧
    loadYamlConfig demoFsBad demoParseBad [] (some "bad.yaml")
      = Except.error (ConfigError.yamlErr "bad.yaml" (some 1) "expected node") := by
  refine ⟨by rfl, by rfl, ?_⟩
  exact (yaml_syntax_error_spec demoFsBad demoParseBad [] "bad.yaml" "key: [broken"
    (some 1) "expected node" demoSchema Option.none Option.none (by rfl) (by rfl)).1

/-- C5: `_load_yaml_config` returns the empty mapping and raises nothing
both when the resolved file does not exist and when opening it is denied
(`PermissionError`), for every path-selection mode. -/
theorem missing_or_denied_file_spec (fs : String → FileState) (parse : String → YamlOut)
    (env : Env) (filePath : Option String) :
    (fs (loadPath env filePath) = FileState.absent →
      loadYamlConfig fs parse env filePath = Except.ok []) ∧
    (fs (loadPath env filePath) = FileState.denied →
      loadYamlConfig fs parse env filePath = Except.ok []) := by
  constructor
  · intro h
    simp [loadYamlConfig, h]
  · intro h
    simp [loadYamlConfig, h]

/-- Witness for C5 at a concrete input. -/
theorem missing_or_denied_file_witness :
    (fun _ : String => FileState.absent) (loadPath [] (some "nope.yaml")) = FileState.absent ∧
    loadYamlConfig (fun _ => FileState.absent) demoParseBad [] (some "nope.yaml")
      = Except.ok [] := by
  refine ⟨by rfl, ?_⟩
  exact (missing_or_denied_file_spec (fun _ => FileState.absent) demoParseBad []
    (some "nope.yaml")).1 (by rfl)

theorem lookupField_cons_self (k : String) (v : PyVal) (tl : Dict) :
    lookupField ((k, v) :: tl) k = some v := by
  simp [lookupField]

theorem lookupField_cons_ne (k1 k : String) (v1 : PyVal) (tl : Dict) (h : k1 ≠ k) :
    lookupField ((k1, v1) :: tl) k = lookupField tl k := by
  simp [lookupField, h]

theorem lookupField_dictSet_self (d : Dict) (k : String) (v : PyVal) :
    lookupField (dictSet d k v) k = some v := by
  induction d with
  | nil => simp [dictSet, lookupField]
  | cons head tail ih =>
    obtain ⟨k2, v2⟩ := head
    by_cases h : k2 = k
    · subst h
      simp [dictSet, lookupField]
    · have hb : (k2 == k) = false := by simp [h]
      simpa [dictSet, hb, lookupField] using ih

theorem lookupField_dictSet_ne (d : Dict) (k2 k : String) (v : PyVal) (h : k2 ≠ k) :
    lookupField (dictSet d k2 v) k = lookupField d k := by
  induction d with
  | nil => simp [dictSet, lookupField, h]
  | cons head tail ih =>
    obtain ⟨k1, v1⟩ := head
    by_cases h1 : k1 = k2
    · subst h1
      simp [dictSet, lookupField, h]
    · have hb : (k1 == k2) = false := by simp [h1]
      by_cases hk : k1 = k
      · subst hk
        simp [dictSet, hb, lookupField]
      · have hbk : (k1 == k) = false := by simp [hk]
        simp only [dictSet, hb, Bool.false_eq_true, if_false]
        rw [lookupField_cons_ne k1 k v1 _ hk, lookupField_cons_ne k1 k v1 tail hk]
        exact ih

theorem lookupField_foldl_not_mem (step : Dict → String × PyVal → Dict)
    (hstep : ∀ m kv, step m kv = m ∨ step m kv = dictSet m kv.1 kv.2)
    (l : List (String × PyVal)) (m : Dict) (k : String)
    (h : k ∉ l.map Prod.fst) :
    lookupField (l.foldl step m) k = lookupField m k := by
  induction l generalizing m with
  | nil => rfl
  | cons kv tl ih =>
    simp only [List.map_cons, List.mem_cons] at h
    push_neg at h
    obtain ⟨h1, h2⟩ := h
    rcases hstep m kv with he | he
    · rw [List.foldl_cons, he]
      exact ih m h2
    · rw [List.foldl_cons, he, ih _ h2]
      exact lookupField_dictSet_ne m kv.1 k kv.2 (fun hh => h1 hh.symm)

theorem mem_keys_dictSet (d : Dict) (k x : String) (v : PyVal) :
    x ∈ (dictSet d k v).map Prod.fst ↔ x = k ∨ x ∈ d.map Prod.fst := by
  induction d with
  | nil => simp [dictSet]
  | cons head tail ih =>
    obtain ⟨k2, v2⟩ := head
    by_cases h : k2 = k
    · subst h
      simp [dictSet]
    · have hb : (k2 == k) = false := by simp [h]
      simp [dictSet, hb, ih]
      tauto

theorem nodup_keys_dictSet (d : Dict) (k : String) (v : PyVal)
    (h : (d.map Prod.fst).Nodup) : ((dictSet d k v).map Prod.fst).Nodup := by
  induction d with
  | nil => simp [dictSet]
  | cons head tail ih =>
    obtain ⟨k2, v2⟩ := head
    simp only [List.map_cons, List.nodup_cons] at h
    obtain ⟨h1, h2⟩ := h
    by_cases he : k2 = k
    · subst he
      have hds : dictSet ((k2, v2) :: tail) k2 v = (k2, v) :: tail := by simp [dictSet]
      rw [hds]
      simp only [List.map_cons, List.nodup_cons]
      exact ⟨by simpa using h1, h2⟩
    · have hb : (k2 == k) = false := by simp [he]
      simp only [dictSet, hb, Bool.false_eq_true, if_false, List.map_cons, List.nodup_cons]
      refine ⟨?_, ih h2⟩
      intro hmem
      rcases (mem_keys_dictSet tail k k2 v).mp hmem with hh | hh
      · exact he hh
      · exact h1 hh

theorem nodup_keys_foldl (step : Dict → String × PyVal → Dict)
    (hstep : ∀ m kv, step m kv = m ∨ step m kv = dictSet m kv.1 kv.2)
    (l : List (String × PyVal)) (m : Dict)
    (h : (m.map Prod.fst).Nodup) : (((l.foldl step m)).map Prod.fst).Nodup := by
  induction l generalizing m with
  | nil => exact h
  | cons kv tl ih =>
    rw [List.foldl_cons]
    rcases hstep m kv with he | he
    · rw [he]
      exact ih m h
    · rw [he]
      exact ih _ (nodup_keys_dictSet m kv.1 kv.2 h)

theorem cliStep_like : ∀ (m : Dict) (kv : String × PyVal),
    (if kv.2.isNone then m else dictSet m kv.1 kv.2) = m ∨
    (if kv.2.isNone then m else dictSet m kv.1 kv.2) = dictSet m kv.1 kv.2 := by
  intro m kv
  by_cases h : kv.2.isNone
  · exact Or.inl (by simp [h])
  · exact Or.inr (by simp [h])

theorem lookupField_cliFold (ovr : List (String × PyVal)) (m : Dict) (k : String) (v : PyVal)
    (hnd : (ovr.map Prod.fst).Nodup) (h : lookupField ovr k = some v)
    (hv : v.isNone = false) :
    lookupField (cliFold m (some ovr)) k = some v := by
  induction ovr generalizing m with
  | nil => simp [lookupField] at h
  | cons kv tl ih =>
    obtain ⟨k1, v1⟩ := kv
    simp only [List.map_cons, List.nodup_cons] at hnd
    obtain ⟨hn1, hn2⟩ := hnd
    by_cases he : k1 = k
    · subst he
      have hv1 : v1 = v := by
        rw [lookupField_cons_self] at h
        exact Option.some.inj h
      subst hv1
      simp only [cliFold, List.foldl_cons, hv, Bool.false_eq_true, if_false]
      rw [lookupField_foldl_not_mem _ cliStep_like tl _ k1 hn1]
      exact lookupField_dictSet_self m k1 v1
    · have h2 : lookupField tl k = some v := by
        rw [lookupField_cons_ne k1 k v1 tl he] at h
        exact h
      have := ih hn2 h2 (m := if v1.isNone then m else dictSet m k1 v1)
      simpa [cliFold, List.foldl_cons] using this

theorem lookupField_applyAll (b : Dict) (a : Dict) (k : String) (v : PyVal)
    (hnd : (b.map Prod.fst).Nodup) (h : lookupField b k = some v) :
    lookupField (applyAll a b) k = some v := by
  induction b generalizing a with
  | nil => simp [lookupField] at h
  | cons kv tl ih =>
    obtain ⟨k1, v1⟩ := kv
    simp only [List.map_cons, List.nodup_cons] at hnd
    obtain ⟨hn1, hn2⟩ := hnd
    by_cases he : k1 = k
    · subst he
      have hv1 : v1 = v := by
        rw [lookupField_cons_self] at h
        exact Option.some.inj h
      subst hv1
      simp only [applyAll, List.foldl_cons]
      rw [lookupField_foldl_not_mem _ (fun m kv => Or.inr rfl) tl _ k1 hn1]
      exact lookupField_dictSet_self a k1 v1
    · have h2 : lookupField tl k = some v := by
        rw [lookupField_cons_ne k1 k v1 tl he] at h
        exact h
      have := ih hn2 h2 (a := dictSet a k1 v1)
      simpa [applyAll, List.foldl_cons] using this

theorem validateVal_some_eq (t : FieldType) (v w : PyVal)
    (h : validateVal t v = some w) : w = v := by
  cases t <;> cases v <;> simp_all [validateVal]

theorem validateFields_lookup (flds : List FieldSpec) (d s : Dict) (f : FieldSpec)
    (v : PyVal) (hnd : (flds.map FieldSpec.name).Nodup) (hf : f ∈ flds)
    (hok : validateFields flds d = Except.ok s)
    (hd : lookupField d f.name = some v) :
    lookupField s f.name = some v := by
  induction flds generalizing s with
  | nil => cases hf
  | cons g tl ih =>
    simp only [List.map_cons, List.nodup_cons] at hnd
    obtain ⟨hn1, hn2⟩ := hnd
    rcases List.mem_cons.mp hf with hfg | hftl
    · subst hfg
      simp only [validateFields, hd] at hok
      cases hw : validateVal f.ty v with
      | none =>
        simp only [hw] at hok
        exact Except.noConfusion hok
      | some w =>
        simp only [hw] at hok
        cases hrec : validateFields tl d with
        | error e =>
          simp only [hrec] at hok
          exact Except.noConfusion hok
        | ok s2 =>
          simp only [hrec] at hok
          have hs : (f.name, w) :: s2 = s := Except.ok.inj hok
          subst hs
          rw [lookupField_cons_self]
          rw [validateVal_some_eq f.ty v w hw]
    · have hne : g.name ≠ f.name := by
        intro hh
        exact hn1 (hh ▸ List.mem_map_of_mem FieldSpec.name hftl)
      cases hg : lookupField d g.name with
      | none =>
        simp only [validateFields, hg] at hok
        cases hrec : validateFields tl d with
        | error e =>
          simp only [hrec] at hok
          exact Except.noConfusion hok
        | ok s2 =>
          simp only [hrec] at hok
          have hs : (g.name, g.default) :: s2 = s := Except.ok.inj hok
          subst hs
          rw [lookupField_cons_ne g.name f.name g.default s2 hne]
          exact ih s2 hn2 hftl hrec
      | some v0 =>
        simp only [validateFields, hg] at hok
        cases hw : validateVal g.ty v0 with
        | none =>
          simp only [hw] at hok
          exact Except.noConfusion hok
        | some w =>
          simp only [hw] at hok
          cases hrec : validateFields tl d with
          | error e =>
            simp only [hrec] at hok
            exact Except.noConfusion hok
          | ok s2 =>
            simp only [hrec] at hok
            have hs : (g.name, w) :: s2 = s := Except.ok.inj hok
            subst hs
            rw [lookupField_cons_ne g.name f.name w s2 hne]
            exact ih s2 hn2 hftl hrec

theorem isEmpty_false_of_lookup (d : Dict) (k : String) (v : PyVal)
    (h : lookupField d k = some v) : d.isEmpty = false := by
  cases d with
  | nil => simp [lookupField] at h
  | cons kv tl => rfl

theorem cliFold_filter_none (ovr : List (String × PyVal)) (m : Dict) :
    cliFold m (some ovr) = cliFold m (some (ovr.filter (fun kv => !kv.2.isNone))) := by
  induction ovr generalizing m with
  | nil => rfl
  | cons kv tl ih =>
    by_cases h : kv.2.isNone
    · simpa [cliFold, List.foldl_cons, List.filter_cons, h] using ih m
    · simpa [cliFold, List.foldl_cons, List.filter_cons, h] using
        ih (dictSet m kv.1 kv.2)

/-- C2: the CLI-override entries of `resolve` whose value is not `None`
are exactly the ones applied — an explicit `None` entry is as if the
entry were absent (dropping all `None` entries changes nothing, so the
environment, YAML file or default supplies such fields), while every
non-`None` entry for a declared field wins over every other source: it is
the resolved value of that field whenever resolution succeeds. -/
theorem cli_overrides_spec :
    (∀ (schema : Schema) (fs : String → FileState) (parse : String → YamlOut)
        (env0 : Env) (dir path : Option String) (ovr : List (String × PyVal)),
      resolve schema fs parse env0 dir path (some ovr)
        = resolve schema fs parse env0 dir path
            (some (ovr.filter (fun kv => !kv.2.isNone)))) ∧
    (∀ (schema : Schema) (fs : String → FileState) (parse : String → YamlOut)
        (env0 : Env) (dir path : Option String) (ovr : List (String × PyVal))
        (f : FieldSpec) (v : PyVal) (s : Dict),
      (schema.fields.map FieldSpec.name).Nodup → f ∈ schema.fields →
      (ovr.map Prod.fst).Nodup → lookupField ovr f.name = some v →
      v.isNone = false →
      (resolve schema fs parse env0 dir path (some ovr)).1 = Except.ok s →
      lookupField s f.name = some v) := by
  constructor
  · intro schema fs parse env0 dir path ovr
    have hcf : ∀ m : Dict, cliFold m (some ovr)
        = cliFold m (some (ovr.filter (fun kv => !kv.2.isNone))) :=
      fun m => cliFold_filter_none ovr m
    have hbody : ∀ env1 : Env, resolveBody schema fs parse env1 path (some ovr)
        = resolveBody schema fs parse env1 path
            (some (ovr.filter (fun kv => !kv.2.isNone))) := by
      intro env1
      unfold resolveBody
      simp only [hcf]
    unfold resolve
    simp only [hbody]
  · intro schema fs parse env0 dir path ovr f v s hndf hf hndo hlk hv hok
    unfold resolve at hok
    simp only at hok
    unfold resolveBody at hok
    set env1 :=
      match dir with
      | some d => envSet env0 "BUVIS_CONFIG_DIR" d
      | Option.none => env0 with henv1
    cases hy : loadYamlConfig fs parse env1 path with
    | error e =>
      simp only [hy] at hok
      exact Except.noConfusion hok
    | ok yamlConfig =>
      simp only [hy] at hok
      cases hb : baseSettings schema env1 with
      | error e =>
        simp only [hb] at hok
        exact Except.noConfusion hok
      | ok base =>
        simp only [hb] at hok
        have hmerged : lookupField (cliFold (yamlFold schema base yamlConfig) (some ovr))
            f.name = some v :=
          lookupField_cliFold ovr (yamlFold schema base yamlConfig) f.name v hndo hlk hv
        have hne : (cliFold (yamlFold schema base yamlConfig) (some ovr)).isEmpty = false :=
          isEmpty_false_of_lookup _ f.name v hmerged
        simp only [hne, Bool.false_eq_true, if_false] at hok
        have hndm : ((cliFold (yamlFold schema base yamlConfig) (some ovr)).map
            Prod.fst).Nodup := by
          have h1 : ((yamlFold schema base yamlConfig).map Prod.fst).Nodup := by
            unfold yamlFold
            refine nodup_keys_foldl _ ?_ yamlConfig [] (by simp)
            intro m kv
            cases hfind : schema.fields.find? (fun f2 => f2.name == kv.1) with
            | none => exact Or.inl (by simp [hfind])
            | some f2 =>
              by_cases hcond : (lookupField base kv.1 == some f2.default) = true
              · exact Or.inr (by simp [hfind, hcond])
              · exact Or.inl (by simp [hfind, hcond])
          unfold cliFold
          exact nodup_keys_foldl _ cliStep_like ovr _ h1
        have happ : lookupField (applyAll base
            (cliFold (yamlFold schema base yamlConfig) (some ovr))) f.name = some v :=
          lookupField_applyAll _ base f.name v hndm hmerged
        exact validateFields_lookup schema.fields _ s f v hndf hf hok happ

/-- Witness for C2 at a concrete input. -/
theorem cli_overrides_witness :
    (resolve demoSchema (fun _ => FileState.absent) demoParseYamlTrue []
        Option.none Option.none (some [("debug", PyVal.bool true)])).1
      = Except.ok [("debug", PyVal.bool true)] ∧
    lookupField [("debug", PyVal.bool true)] "debug" = some (PyVal.bool true) := by
  have hok : (resolve demoSchema (fun _ => FileState.absent) demoParseYamlTrue []
      Option.none Option.none (some [("debug", PyVal.bool true)])).1
        = Except.ok [("debug", PyVal.bool true)] := by rfl
  refine ⟨hok, ?_⟩
  exact cli_overrides_spec.2 demoSchema (fun _ => FileState.absent) demoParseYamlTrue []
    Option.none Option.none [("debug", PyVal.bool true)]
    ⟨"debug", FieldType.bool, PyVal.bool false⟩ (PyVal.bool true)
    [("debug", PyVal.bool true)] (by simp [demoSchema])
    (by simp [demoSchema]) (by simp) (by rfl) (by rfl) hok

theorem takeWhile_append_all (p : Char → Bool) (l1 l2 : List Char)
    (h : ∀ c ∈ l1, p c = true) : (l1 ++ l2).takeWhile p = l1 ++ l2.takeWhile p := by
  induction l1 with
  | nil => simp
  | cons c tl ih =>
    have hc : p c = true := h c (by simp)
    simp only [List.cons_append, List.takeWhile_cons, hc, if_true]
    rw [ih (fun c2 h2 => h c2 (by simp [h2]))]

theorem dropWhile_append_all (p : Char → Bool) (l1 l2 : List Char)
    (h : ∀ c ∈ l1, p c = true) : (l1 ++ l2).dropWhile p = l2.dropWhile p := by
  induction l1 with
  | nil => simp
  | cons c tl ih =>
    have hc : p c = true := h c (by simp)
    simp only [List.cons_append, List.dropWhile_cons, hc, if_true]
    exact ih (fun c2 h2 => h c2 (by simp [h2]))

theorem tryPat_no_dflt (nm suffix : List Char) (hne : nm ≠ [])
    (hch : ∀ c ∈ nm, nameChar c = true) :
    tryPat ('{' :: (nm ++ '}' :: suffix)) = some (nm, Option.none, nm.length + 2) := by
  have ht : (nm ++ '}' :: suffix).takeWhile nameChar = nm := by
    rw [takeWhile_append_all nameChar nm _ hch]
    simp [List.takeWhile_cons, nameChar]
  have hd : (nm ++ '}' :: suffix).dropWhile nameChar = '}' :: suffix := by
    rw [dropWhile_append_all nameChar nm _ hch]
    simp [List.dropWhile_cons, nameChar]
  have hie : nm.isEmpty = false := by
    cases nm with
    | nil => exact absurd rfl hne
    | cons a b => rfl
  simp [tryPat, ht, hd, hie]

theorem tryPat_with_dflt (nm dflt suffix : List Char) (hne : nm ≠ [])
    (hch : ∀ c ∈ nm, nameChar c = true)
    (hdch : ∀ c ∈ dflt, (c == '}') = false) :
    tryPat ('{' :: (nm ++ ':' :: '-' :: (dflt ++ '}' :: suffix)))
      = some (nm, some dflt, nm.length + dflt.length + 4) := by
  have ht : (nm ++ ':' :: '-' :: (dflt ++ '}' :: suffix)).takeWhile nameChar = nm := by
    rw [takeWhile_append_all nameChar nm _ hch]
    simp [List.takeWhile_cons, nameChar]
  have hd : (nm ++ ':' :: '-' :: (dflt ++ '}' :: suffix)).dropWhile nameChar
      = ':' :: '-' :: (dflt ++ '}' :: suffix) := by
    rw [dropWhile_append_all nameChar nm _ hch]
    simp [List.dropWhile_cons, nameChar]
  have ht2 : (dflt ++ '}' :: suffix).takeWhile (fun c => !(c == '}')) = dflt := by
    rw [takeWhile_append_all _ dflt _ (fun c h2 => by simp [hdch c h2])]
    simp [List.takeWhile_cons]
  have hd2 : (dflt ++ '}' :: suffix).dropWhile (fun c => !(c == '}')) = '}' :: suffix := by
    rw [dropWhile_append_all _ dflt _ (fun c h2 => by simp [hdch c h2])]
    simp [List.dropWhile_cons]
  have hie : nm.isEmpty = false := by
    cases nm with
    | nil => exact absurd rfl hne
    | cons a b => rfl
  simp [tryPat, ht, hd, ht2, hd2, hie]

theorem drop_token_no_dflt (nm suffix : List Char) :
    ('{' :: (nm ++ '}' :: suffix)).drop (nm.length + 2) = suffix := by
  show ('{' :: (nm ++ '}' :: suffix)).drop (nm.length + 1 + 1) = suffix
  rw [List.drop_succ_cons]
  have h2 : nm ++ '}' :: suffix = (nm ++ ['}']) ++ suffix := by simp
  have h3 : nm.length + 1 = (nm ++ ['}']).length := by simp
  rw [h2, h3, List.drop_left]

theorem drop_token_with_dflt (nm dflt suffix : List Char) :
    ('{' :: (nm ++ ':' :: '-' :: (dflt ++ '}' :: suffix))).drop
      (nm.length + dflt.length + 4) = suffix := by
  show ('{' :: (nm ++ ':' :: '-' :: (dflt ++ '}' :: suffix))).drop
      (nm.length + dflt.length + 3 + 1) = suffix
  rw [List.drop_succ_cons]
  have h2 : nm ++ ':' :: '-' :: (dflt ++ '}' :: suffix)
      = (nm ++ ':' :: '-' :: (dflt ++ ['}'])) ++ suffix := by simp
  have h3 : nm.length + dflt.length + 3 = (nm ++ ':' :: '-' :: (dflt ++ ['}'])).length := by
    simp
    omega
  rw [h2, h3, List.drop_left]

theorem drop_token_with_dflt_tail (nm dflt suffix : List Char) :
    (nm ++ ':' :: '-' :: (dflt ++ '}' :: suffix)).drop
      (nm.length + dflt.length + 3) = suffix := by
  have h2 : nm ++ ':' :: '-' :: (dflt ++ '}' :: suffix)
      = (nm ++ ':' :: '-' :: (dflt ++ ['}'])) ++ suffix := by simp
  have h3 : nm.length + dflt.length + 3 = (nm ++ ':' :: '-' :: (dflt ++ ['}'])).length := by
    simp
    omega
  rw [h2, h3, List.drop_left]

theorem scanSub_nil (e : Env) : scanSub e [] = ([], []) := by
  rw [scanSub]

theorem scanSub_cons_not_dollar (e : Env) (c : Char) (rest : List Char) (h : c ≠ '$') :
    scanSub e (c :: rest) = ((c :: (scanSub e rest).1, (scanSub e rest).2)) := by
  rw [scanSub]
  simp [h]

theorem scanSub_append_clean (e : Env) (pre rest : List Char)
    (h : ∀ c ∈ pre, (c == '$') = false) :
    scanSub e (pre ++ rest) = ((pre ++ (scanSub e rest).1, (scanSub e rest).2)) := by
  induction pre with
  | nil => simp
  | cons c tl ih =>
    have hc : c ≠ '$' := by
      have := h c (by simp)
      simpa using this
    rw [List.cons_append, scanSub_cons_not_dollar e c _ hc,
      ih (fun c2 h2 => h c2 (by simp [h2]))]
    simp

theorem scanSub_token_set (e : Env) (nm suffix : List Char) (v : String)
    (hne : nm ≠ []) (hch : ∀ c ∈ nm, nameChar c = true)
    (hv : envGet e (String.mk nm) = some v) :
    scanSub e ('$' :: '{' :: (nm ++ '}' :: suffix))
      = (v.data ++ (scanSub e suffix).1, (scanSub e suffix).2) := by
  rw [scanSub]
  simp [tryPat_no_dflt nm suffix hne hch, drop_token_no_dflt, hv]

theorem scanSub_token_unset (e : Env) (nm suffix : List Char)
    (hne : nm ≠ []) (hch : ∀ c ∈ nm, nameChar c = true)
    (hv : envGet e (String.mk nm) = Option.none) :
    scanSub e ('$' :: '{' :: (nm ++ '}' :: suffix))
      = ('$' :: '{' :: (nm ++ '}' :: (scanSub e suffix).1),
          String.mk nm :: (scanSub e suffix).2) := by
  rw [scanSub]
  simp [tryPat_no_dflt nm suffix hne hch, drop_token_no_dflt, hv]

theorem scanSub_token_dflt_unset (e : Env) (nm dflt suffix : List Char)
    (hne : nm ≠ []) (hch : ∀ c ∈ nm, nameChar c = true)
    (hdch : ∀ c ∈ dflt, (c == '}') = false)
    (hv : envGet e (String.mk nm) = Option.none) :
    scanSub e ('$' :: '{' :: (nm ++ ':' :: '-' :: (dflt ++ '}' :: suffix)))
      = (dflt ++ (scanSub e suffix).1, (scanSub e suffix).2) := by
  rw [scanSub]
  simp [tryPat_with_dflt nm dflt suffix hne hch hdch, drop_token_with_dflt,
    drop_token_with_dflt_tail, hv]

theorem scanSub_token_dflt_set (e : Env) (nm dflt suffix : List Char) (v : String)
    (hne : nm ≠ []) (hch : ∀ c ∈ nm, nameChar c = true)
    (hdch : ∀ c ∈ dflt, (c == '}') = false)
    (hv : envGet e (String.mk nm) = some v) :
    scanSub e ('$' :: '{' :: (nm ++ ':' :: '-' :: (dflt ++ '}' :: suffix)))
      = (v.data ++ (scanSub e suffix).1, (scanSub e suffix).2) := by
  rw [scanSub]
  simp [tryPat_with_dflt nm dflt suffix hne hch hdch, drop_token_with_dflt,
    drop_token_with_dflt_tail, hv]

/-- C6: single-occurrence behaviour of the substitution scan, for every
environment, every pattern-free prefix, every valid variable name and
every tail: a set variable (even one set to the empty string) is replaced
by its value verbatim and the scan continues after the token only (the
substituted value is never re-scanned — conjuncts 1 and 4 splice `v.data`
untouched); an unset variable with a default literal is replaced by the
default (so `port: $\x7bDB_PORT:-5432\x7d` with `DB_PORT` unset becomes
`port: 5432`); an unset variable without a default leaves the original
`$\x7bNAME\x7d` text in place and appends `NAME` to the missing-variable
list (so `key: $\x7bUNSET\x7d` stays literal with missing list
`["UNSET"]`). -/
theorem substitution_spec (e : Env) (pre nm suffix : List Char)
    (hpre : ∀ c ∈ pre, (c == '$') = false)
    (hne : nm ≠ []) (hch : ∀ c ∈ nm, nameChar c = true) :
    (∀ v, envGet e (String.mk nm) = some v →
      scanSub e (pre ++ '$' :: '{' :: (nm ++ '}' :: suffix))
        = (pre ++ v.data ++ (scanSub e suffix).1, (scanSub e suffix).2)) ∧
    (envGet e (String.mk nm) = Option.none →
      scanSub e (pre ++ '$' :: '{' :: (nm ++ '}' :: suffix))
        = (pre ++ '$' :: '{' :: (nm ++ '}' :: (scanSub e suffix).1),
            String.mk nm :: (scanSub e suffix).2)) ∧
    (∀ dflt, (∀ c ∈ dflt, (c == '}') = false) →
      envGet e (String.mk nm) = Option.none →
      scanSub e (pre ++ '$' :: '{' :: (nm ++ ':' :: '-' :: (dflt ++ '}' :: suffix)))
        = (pre ++ dflt ++ (scanSub e suffix).1, (scanSub e suffix).2)) ∧
    (∀ dflt v, (∀ c ∈ dflt, (c == '}') = false) →
      envGet e (String.mk nm) = some v →
      scanSub e (pre ++ '$' :: '{' :: (nm ++ ':' :: '-' :: (dflt ++ '}' :: suffix)))
        = (pre ++ v.data ++ (scanSub e suffix).1, (scanSub e suffix).2)) := by
  refine ⟨?_, ?_, ?_, ?_⟩
  · intro v hv
    rw [scanSub_append_clean e pre _ hpre, scanSub_token_set e nm suffix v hne hch hv]
    simp [List.append_assoc]
  · intro hv
    rw [scanSub_append_clean e pre _ hpre, scanSub_token_unset e nm suffix hne hch hv]
  · intro dflt hdch hv
    rw [scanSub_append_clean e pre _ hpre,
      scanSub_token_dflt_unset e nm dflt suffix hne hch hdch hv]
    simp [List.append_assoc]
  · intro dflt v hdch hv
    rw [scanSub_append_clean e pre _ hpre,
      scanSub_token_dflt_set e nm dflt suffix v hne hch hdch hv]
    simp [List.append_assoc]

/-- Witness for C6 at a concrete input: the default-substitution scenario
`port: $\x7bDB_PORT:-5432\x7d` with `DB_PORT` unset. -/
theorem substitution_witness :
    scanSub [] ("port: ${DB_PORT:-5432}".data) = ("port: 5432".data, []) := by
  have h := (substitution_spec [] "port: ".data "DB_PORT".data []
    (by decide) (by decide) (by decide)).2.2.1 "5432".data (by decide) (by rfl)
  have heq : "port: ${DB_PORT:-5432}".data
      = "port: ".data ++ '$' :: '{' :: ("DB_PORT".data ++ ':' :: '-' ::
          ("5432".data ++ '}' :: [])) := by decide
  rw [heq, h, scanSub_nil]
  decide

end Buvis
